import Mathlib

/-!
Shallow embedding of the PremierLeagueMatchPredictor temporal
rating-and-ingestion pipeline, and theorems settling the frozen claims.

Sources embedded:
  * `backend/database.py`  — `Database.add_new_match`, `Database.update_elo_ratings`,
    `Database.process_historical_matches`, `Database.get_match_features`,
    `Database.get_match_features2`, `Database.set_last_fetched_date`, table schema.
  * `backend/scheduler.py` — `MatchUpdater.process_new_matches`,
    `MatchUpdater.update_matches`, `MatchUpdater._get_date_chunks`.
  * `backend/fix_elo.py`   — `EloFixer.fix_elo_ratings` and its helpers.
  * `backend/services/football_api.py` — `FootballAPIService._make_request`.

Modelling conventions:
  * SQLite `DATE` columns hold `YYYY-MM-DD` strings whose lexicographic order
    is exactly chronological order; dates are embedded as `Int` day numbers.
  * Table rows are lists in insertion order; `cursor.fetchone()` on a query is
    `List.find?` / `head?` of the rows matching the `WHERE` clause.
  * Ratings are stored as SQLite `REAL`.  The rating arithmetic itself
    (`10 ** x`) lives in `ℝ` (section "Rating Engine" below); the stateful
    ingestion layer is parameterised by the rating type `ρ` and by the engine
    function, mirroring the source where `update_elo_ratings` is the only
    consumer of the numeric formula.  Feature-computation state instantiates
    `ρ := ℚ` (exact decimal storage values).
-/

namespace MatchPredictor

/-- A row of the `matches` table (`database.py`, `_init_db`):
`match_id` (PK), `api_match_id` (nullable, UNIQUE), `home_team_id`,
`away_team_id`, `date`, `home_goals`, `away_goals`, `result`
(`-1` home win, `0` draw, `1` away win). -/
structure MatchRow where
  mid : Nat
  apiMid : Option Nat
  home : Nat
  away : Nat
  date : Int
  homeGoals : Int
  awayGoals : Int
  result : Int
deriving DecidableEq

/-- A row of the `teams` table: `team_id` (PK), `api_team_id` (nullable,
UNIQUE), `name`, `current_elo_rating` (REAL, default 1500.0), `updated_at`.
The rating type is a parameter `ρ` (see module header). -/
structure Team (ρ : Type) where
  tid : Nat
  apiId : Option Nat
  name : String
  rating : ρ
  updatedAt : Int
deriving DecidableEq

/-- The persistent state: `teams` and `matches` tables plus the
`last_fetched_date` watermark row of `system_settings`.  `nextTeamId` /
`nextMatchId` model the AUTOINCREMENT counters. -/
structure DB (ρ : Type) where
  teams : List (Team ρ)
  matchesTable : List MatchRow
  nextTeamId : Nat
  nextMatchId : Nat
  watermark : Option Int
deriving DecidableEq

def emptyDB {ρ : Type} : DB ρ := ⟨[], [], 1, 1, none⟩

/-! ### Rating Engine (`database.py`, `Database.update_elo_ratings`, lines 236-295;
the identical arithmetic appears in `fix_elo.py`, `EloFixer.update_elo_ratings`). -/

def K_FACTOR : ℝ := 30

def HOME_ADVANTAGE : ℝ := 70

/-- `home_expected = 1 / (1 + 10 ** ((away_elo - (home_elo + HOME_ADVANTAGE)) / 400))`. -/
noncomputable def homeExpected (homeElo awayElo : ℝ) : ℝ :=
  1 / (1 + (10 : ℝ) ^ ((awayElo - (homeElo + HOME_ADVANTAGE)) / 400))

/-- `away_expected = 1 - home_expected`. -/
noncomputable def awayExpected (homeElo awayElo : ℝ) : ℝ :=
  1 - homeExpected homeElo awayElo

/-- `home_actual`: 1 for a home win (`result == -1`), 0.5 for a draw
(`result == 0`), 0 otherwise. -/
noncomputable def homeActual (result : Int) : ℝ :=
  if result = -1 then 1 else if result = 0 then 1 / 2 else 0

/-- `away_actual`: 0 for a home win, 0.5 for a draw, 1 otherwise. -/
noncomputable def awayActual (result : Int) : ℝ :=
  if result = -1 then 0 else if result = 0 then 1 / 2 else 1

/-- `new_home_elo = home_elo + K_FACTOR * (home_actual - home_expected)`. -/
noncomputable def newHomeElo (homeElo awayElo : ℝ) (result : Int) : ℝ :=
  homeElo + K_FACTOR * (homeActual result - homeExpected homeElo awayElo)

/-- `new_away_elo = away_elo + K_FACTOR * (away_actual - away_expected)`. -/
noncomputable def newAwayElo (homeElo awayElo : ℝ) (result : Int) : ℝ :=
  awayElo + K_FACTOR * (awayActual result - awayExpected homeElo awayElo)

/-! ### Ingestion (`database.py`, `Database.add_new_match`, lines 530-690)

The stateful layer is parameterised by the rating type `ρ`, the default
rating `dflt` (the literal `1500.0` in the source) and the engine function
`eng : ρ → ρ → Int → ρ × ρ` (the arithmetic of `update_elo_ratings`,
embedded over `ℝ` above). -/

variable {ρ : Type}

/-- `SELECT team_id FROM teams WHERE api_team_id = ?` followed by `fetchone()`. -/
def findTeamByApi (ts : List (Team ρ)) (api : Nat) : Option (Team ρ) :=
  ts.find? (fun t => t.apiId == some api)

/-- `SELECT team_id FROM teams WHERE name = ?` followed by `fetchone()`. -/
def findTeamByName (ts : List (Team ρ)) (nm : String) : Option (Team ρ) :=
  ts.find? (fun t => t.name == nm)

/-- `UPDATE teams SET api_team_id = ? WHERE team_id = ?`. -/
def setApiId (ts : List (Team ρ)) (tid api : Nat) : List (Team ρ) :=
  ts.map (fun t => if t.tid == tid then { t with apiId := some api } else t)

/-- One side of the team-resolution preamble of `add_new_match`: look the team
up by API id; failing that, look it up by name and backfill the API id onto the
found row; failing that, insert a new team with the default rating. -/
def resolveTeam (dflt : ρ) (db : DB ρ) (api : Nat) (nm : String) : DB ρ × Nat :=
  match findTeamByApi db.teams api with
  | some t => (db, t.tid)
  | none =>
    match findTeamByName db.teams nm with
    | some t => ({ db with teams := setApiId db.teams t.tid api }, t.tid)
    | none =>
      ({ db with
           teams := db.teams ++ [⟨db.nextTeamId, some api, nm, dflt, 0⟩],
           nextTeamId := db.nextTeamId + 1 },
       db.nextTeamId)

/-- The raw record handed to `add_new_match` (the `match_data` dict built in
`scheduler.py`): `apiMid = none` models a dict without the `'match_id'` key. -/
structure RawRecord where
  apiMid : Option Nat
  homeApi : Nat
  awayApi : Nat
  homeName : String
  awayName : String
  date : Int
  homeGoals : Int
  awayGoals : Int
  result : Int
deriving DecidableEq

def teamExists (ts : List (Team ρ)) (tid : Nat) : Bool :=
  ts.any (fun t => t.tid == tid)

/-- The duplicate-check queries `JOIN teams` on both competitor columns, so a
stored row is only visible to the check when both referenced teams exist. -/
def joinedRow (db : DB ρ) (m : MatchRow) : Bool :=
  teamExists db.teams m.home && teamExists db.teams m.away

/-- The "enhanced duplicate check" of `add_new_match`: with an API match id,
match on `api_match_id` or on the `(date, home_team_id, away_team_id)` triple;
without one, match on the triple only. -/
def dupExists (db : DB ρ) (r : RawRecord) (h a : Nat) : Bool :=
  match r.apiMid with
  | some api =>
    db.matchesTable.any (fun m =>
      (m.apiMid == some api || (m.date == r.date && m.home == h && m.away == a))
        && joinedRow db m)
  | none =>
    db.matchesTable.any (fun m =>
      (m.date == r.date && m.home == h && m.away == a) && joinedRow db m)

/-- The schema constraints that make the final `INSERT` raise
`sqlite3.IntegrityError` (caught in the source, which then returns `None`):
`api_match_id` is UNIQUE, and `(date, home_team_id, away_team_id)` is unique
among rows whose `api_match_id` IS NULL (partial index `unique_match_constraint`). -/
def insertViolates (db : DB ρ) (r : RawRecord) (h a : Nat) : Bool :=
  match r.apiMid with
  | some api => db.matchesTable.any (fun m => m.apiMid == some api)
  | none =>
    db.matchesTable.any (fun m =>
      m.apiMid == none && m.date == r.date && m.home == h && m.away == a)

/-- `Database.add_new_match`: resolve both teams (mutating the `teams` table),
run the duplicate check, and insert, returning the new `match_id` or `None`
on a duplicate / integrity error. -/
def addNewMatch (dflt : ρ) (db : DB ρ) (r : RawRecord) : DB ρ × Option Nat :=
  let p1 := resolveTeam dflt db r.homeApi r.homeName
  let p2 := resolveTeam dflt p1.1 r.awayApi r.awayName
  let db2 := p2.1
  let h := p1.2
  let a := p2.2
  if dupExists db2 r h a then (db2, none)
  else if insertViolates db2 r h a then (db2, none)
  else
    ({ db2 with
         matchesTable := db2.matchesTable ++
           [⟨db2.nextMatchId, r.apiMid, h, a, r.date, r.homeGoals, r.awayGoals, r.result⟩],
         nextMatchId := db2.nextMatchId + 1 },
     some db2.nextMatchId)

/-- `SELECT current_elo_rating FROM teams WHERE team_id = ?` + `fetchone()`. -/
def findTeamByTid (ts : List (Team ρ)) (tid : Nat) : Option (Team ρ) :=
  ts.find? (fun t => t.tid == tid)

/-- `UPDATE teams SET current_elo_rating = ? WHERE team_id = ?`. -/
def setRating (ts : List (Team ρ)) (tid : Nat) (x : ρ) : List (Team ρ) :=
  ts.map (fun t => if t.tid == tid then { t with rating := x } else t)

/-- `Database.update_elo_ratings(match_id)`: fetch the match and both current
ratings, apply the engine, and write both new ratings back (home first, away
second, exactly as in the source).  A missing match id raises `ValueError` in
the source; every caller wraps the call in a per-record handler, so that
branch is modelled as leaving the state unchanged.  (Wall-clock `updated_at`
refreshes are not modelled; no claim depends on them.) -/
def updateEloDb (eng : ρ → ρ → Int → ρ × ρ) (db : DB ρ) (mid : Nat) : DB ρ :=
  match db.matchesTable.find? (fun m => m.mid == mid) with
  | none => db
  | some m =>
    match findTeamByTid db.teams m.home, findTeamByTid db.teams m.away with
    | some th, some ta =>
      let p := eng th.rating ta.rating m.result
      { db with teams := setRating (setRating db.teams m.home p.1) m.away p.2 }
    | _, _ => db

/-- One ingestion step as driven by `MatchUpdater.process_new_matches` once a
record survives its checks: `add_new_match`, then `update_elo_ratings` when a
row was actually inserted. -/
def ingest (dflt : ρ) (eng : ρ → ρ → Int → ρ × ρ) (db : DB ρ) (r : RawRecord) :
    DB ρ × Option Nat :=
  match addNewMatch dflt db r with
  | (db1, some mid) => (updateEloDb eng db1 mid, some mid)
  | (db1, none) => (db1, none)

/-! ### Ingestion pass (`scheduler.py`, `MatchUpdater.process_new_matches`,
lines 74-158) -/

/-- One entry of the `matches` list handed to `process_new_matches` (the
`match_data` dicts assembled in `update_matches`). -/
structure ApiMatch where
  matchId : Nat
  status : String
  homeApi : Nat
  awayApi : Nat
  homeName : String
  awayName : String
  date : Int
  homeGoals : Option Int
  awayGoals : Option Int
deriving DecidableEq

/-- `scheduler.py` line 97 calls
`self.db.get_match_features(home_id, away_id, match_date=match_date)`, but
`Database.get_match_features` (`database.py` line 389) has no `match_date`
parameter.  Python raises `TypeError: get_match_features() got an unexpected
keyword argument 'match_date'` at the call site, before the function body
runs; the per-record `except` at line 153 catches it. -/
def getMatchFeaturesWithDateKw : Except String Unit :=
  .error "TypeError: get_match_features() got an unexpected keyword argument"

/-- The `match_data` dict built at `scheduler.py` lines 119-131 for
`add_new_match`: goals default to 0 via `if ... is not None else 0`, and
`result` is `-1` / `0` / `1` by comparing home and away goals. -/
def toRecord (m : ApiMatch) : RawRecord :=
  let hg := m.homeGoals.getD 0
  let ag := m.awayGoals.getD 0
  { apiMid := some m.matchId
    homeApi := m.homeApi
    awayApi := m.awayApi
    homeName := m.homeName
    awayName := m.awayName
    date := m.date
    homeGoals := hg
    awayGoals := ag
    result := if ag < hg then -1 else if hg = ag then 0 else 1 }

/-- One iteration of the `for match in matches` loop of `process_new_matches`:
skip non-`FINISHED` records; skip records whose `api_match_id` is already
stored; then compute features (which, as the call stands in the source, raises
`TypeError` and sends the record to the per-record handler).  The branch after
a successful feature call — `add_new_match` followed by `update_elo_ratings` —
is written out even though the feature call never returns normally.
(The prediction insert touches only the `match_predictions` table, which no
claim concerns, and is not modelled.)  Returns the new state and whether the
record was added. -/
def processOneMatch (dflt : ρ) (eng : ρ → ρ → Int → ρ × ρ) (db : DB ρ)
    (m : ApiMatch) : DB ρ × Bool :=
  if m.status ≠ "FINISHED" then (db, false)
  else if db.matchesTable.any (fun row => row.apiMid == some m.matchId) then
    (db, false)
  else
    match getMatchFeaturesWithDateKw with
    | .error _ => (db, false)
    | .ok _ =>
      match addNewMatch dflt db (toRecord m) with
      | (db1, some mid) => (updateEloDb eng db1 mid, true)
      | (db1, none) => (db1, false)

/-- `MatchUpdater.process_new_matches`: fold the loop over the batch, counting
added records (`added_count`). -/
def processNewMatches (dflt : ρ) (eng : ρ → ρ → Int → ρ × ρ) (db : DB ρ)
    (ms : List ApiMatch) : DB ρ × Nat :=
  ms.foldl
    (fun p m =>
      let q := processOneMatch dflt eng p.1 m
      (q.1, p.2 + if q.2 then 1 else 0))
    (db, 0)

/-! ### Synchronization controller (`scheduler.py`,
`MatchUpdater.update_matches`, lines 170-272, and `_get_date_chunks`,
lines 160-168) -/

/-- `SELECT MAX(date) FROM matches` (`get_last_match_date`). -/
def lastMatchDate (db : DB ρ) : Option Int :=
  db.matchesTable.foldl
    (fun acc m =>
      match acc with
      | none => some m.date
      | some d => some (max d m.date))
    none

/-- The hard-coded season-start fallback `datetime(2024, 8, 1)` as a day
number (the origin of the day-number scale is irrelevant to every claim). -/
def seasonStartDefault : Int := 0

/-- `MatchUpdater._get_date_chunks`: split `[start, endD)` into sub-windows of
`size` days; each iteration advances `current_start` to `chunk_end + 1`.  The
structural `fuel` bounds the loop; callers pass more than enough. -/
def dateChunks (fuel : Nat) (start endD size : Int) : List (Int × Int) :=
  match fuel with
  | 0 => []
  | fuel' + 1 =>
    if start < endD then
      (start, min (start + size) endD) ::
        dateChunks fuel' (min (start + size) endD + 1) endD size
    else []

/-- The environment of one synchronization pass: the current wall-clock date,
the season end date reported upstream, and the outcome of the fetch for each
sub-window index (`.error` models a failed / rate-limited-out sub-window whose
`continue` skips it). -/
structure SyncEnv where
  now : Int
  seasonEnd : Int
  fetches : Nat → Except String (List ApiMatch)

/-- The body of `update_matches` after the window has been derived: build the
chunk list, attempt every sub-window (collecting the records of the successful
ones, in order), run `process_new_matches` on the collected batch, and set the
watermark to today (`set_last_fetched_date(now.date())`). -/
def runFetchWindow (dflt : ρ) (eng : ρ → ρ → Int → ρ × ρ) (db : DB ρ)
    (env : SyncEnv) (fromDate toDate : Int) : DB ρ × List (Int × Int) :=
  let chunks := dateChunks ((toDate - fromDate).toNat + 1) fromDate toDate 5
  let collected :=
    (List.range chunks.length).foldl
      (fun acc i =>
        match env.fetches i with
        | .ok ms => acc ++ ms
        | .error _ => acc)
      []
  let db1 := (processNewMatches dflt eng db collected).1
  ({ db1 with watermark := some env.now }, chunks)

/-- `MatchUpdater.update_matches`: derive the fetch window (lower bound =
last stored match date minus 10 days, or the season-start default; upper
bound = season end + 1 day); when the last stored match date already reaches
the season end, or the window is inverted, skip fetching; in every case the
pass ends by setting the watermark to today.  Besides the final state it
returns the list of sub-windows attempted. -/
def updateMatches (dflt : ρ) (eng : ρ → ρ → Int → ρ × ρ) (db : DB ρ)
    (env : SyncEnv) : DB ρ × List (Int × Int) :=
  let toDate := env.seasonEnd + 1
  match lastMatchDate db with
  | some lmd =>
    if env.seasonEnd ≤ lmd then ({ db with watermark := some env.now }, [])
    else if toDate < lmd - 10 then ({ db with watermark := some env.now }, [])
    else runFetchWindow dflt eng db env (lmd - 10) toDate
  | none =>
    if toDate < seasonStartDefault then
      ({ db with watermark := some env.now }, [])
    else runFetchWindow dflt eng db env seasonStartDefault toDate

/-! ### Full rebuild (`fix_elo.py`, `EloFixer`, and `database.py`,
`Database.process_historical_matches`) -/

/-- `reset_elo_ratings` / the initialisation step of
`process_historical_matches`: `UPDATE teams SET current_elo_rating = 1500.0`. -/
def resetRatings (dflt : ρ) (db : DB ρ) : DB ρ :=
  { db with teams := db.teams.map (fun t => { t with rating := dflt }) }

/-- The loop of `process_matches_chronologically` (identically,
`process_historical_matches`): iterate over the `ORDER BY date ASC` snapshot,
skipping any `match_id` already in the `processed_matches` set, applying
`update_elo_ratings` to each fresh id. -/
def chronoPass (eng : ρ → ρ → Int → ρ × ρ) :
    List MatchRow → List Nat → DB ρ → DB ρ
  | [], _, db => db
  | m :: rest, seen, db =>
    if m.mid ∈ seen then chronoPass eng rest seen db
    else chronoPass eng rest (m.mid :: seen) (updateEloDb eng db m.mid)

/-- The subsequence of rows the loop actually processes: first occurrence of
each `match_id`, in list order. -/
def keepFirstByMid : List MatchRow → List Nat → List MatchRow
  | [], _ => []
  | m :: rest, seen =>
    if m.mid ∈ seen then keepFirstByMid rest seen
    else m :: keepFirstByMid rest (m.mid :: seen)

/-- `ORDER BY date ASC` as a relation. -/
def dateLe (m1 m2 : MatchRow) : Prop := m1.date ≤ m2.date

instance : DecidableRel dateLe := fun m1 m2 =>
  inferInstanceAs (Decidable (m1.date ≤ m2.date))

instance : IsTotal MatchRow dateLe := ⟨fun m1 m2 => le_total m1.date m2.date⟩

instance : IsTrans MatchRow dateLe := ⟨fun _ _ _ h1 h2 => le_trans h1 h2⟩

/-- `ORDER BY date DESC` as a relation. -/
def dateGe (m1 m2 : MatchRow) : Prop := m2.date ≤ m1.date

instance : DecidableRel dateGe := fun m1 m2 =>
  inferInstanceAs (Decidable (m2.date ≤ m1.date))

/-- The `ORDER BY date ASC` snapshot (`SELECT match_id, date FROM matches
ORDER BY date ASC`), embedded as a deterministic stable sort. -/
def sortByDateAsc (l : List MatchRow) : List MatchRow :=
  List.insertionSort dateLe l

/-- `process_matches_chronologically` as a state transformer. -/
def processChrono (eng : ρ → ρ → Int → ρ × ρ) (db : DB ρ) : DB ρ :=
  chronoPass eng (sortByDateAsc db.matchesTable) [] db

/-- The sequence of rows folded by `processChrono`, deduplicated by id. -/
def procSeq (db : DB ρ) : List MatchRow :=
  keepFirstByMid (sortByDateAsc db.matchesTable) []

/-- Injection points for an unexpected error escaping to the `except` of
`fix_elo_ratings`: in `reset_elo_ratings`, in the match-list query before the
fold, or in `verify_elo_ratings` after the fold.  (Per-record errors inside
the fold are caught by the loop's own handler and never escape.) -/
inductive FailPoint where
  | duringReset
  | beforeFold
  | duringVerify
deriving DecidableEq

/-- The body of `fix_elo_ratings` between backup and restore, with the state
the escaping error leaves behind carried in `.error`. -/
def runRebuild (dflt : ρ) (eng : ρ → ρ → Int → ρ × ρ) (db : DB ρ) :
    Option FailPoint → Except (DB ρ) (DB ρ)
  | some .duringReset => .error db
  | some .beforeFold => .error (resetRatings dflt db)
  | some .duringVerify => .error (processChrono eng (resetRatings dflt db))
  | none => .ok (processChrono eng (resetRatings dflt db))

/-- `EloFixer.fix_elo_ratings`: copy the database file aside
(`backup_database`), run reset + chronological reprocessing + verification,
and on any exception restore the copied file over the live one and re-raise.
Returns the resulting state and whether an error was re-raised. -/
def fixEloRatings (dflt : ρ) (eng : ρ → ρ → Int → ρ × ρ) (db : DB ρ)
    (fail : Option FailPoint) : DB ρ × Bool :=
  let backup := db
  match runRebuild dflt eng db fail with
  | .ok d => (d, false)
  | .error _ => (backup, true)

/-! ### Feature computer (`database.py`, `Database.get_match_features2`,
lines 693-836, and `Database.get_match_features`, lines 389-528)

The aggregate sub-queries all have the shape
`WITH pool AS (SELECT ..., ROW_NUMBER() OVER (ORDER BY date DESC) as rn
FROM matches WHERE <team condition> [AND date < ?]) SELECT <aggregate> FROM
pool WHERE rn <= 5`: filter, order by date descending, keep the 5 most
recent, aggregate.  Feature state instantiates `ρ := ℚ`. -/

/-- The optional `AND date < ?` conjunct appended when `match_date` is given. -/
def beforeCutoff (cutoff : Option Int) (m : MatchRow) : Bool :=
  match cutoff with
  | none => true
  | some t => decide (m.date < t)

/-- `ROW_NUMBER() OVER (ORDER BY date DESC)` then `rn <= 5`: the five most
recent rows (deterministic stable sort standing in for SQLite's tie order). -/
def lastFive (l : List MatchRow) : List MatchRow :=
  (List.insertionSort dateGe l).take 5

/-- Head-to-head pool.  The source builds the clause by string concatenation:
`WHERE (home_team_id = ? AND away_team_id = ?) OR (home_team_id = ? AND
away_team_id = ?)` plus, when a cutoff is given, `' AND date < ?'`.  SQL gives
`AND` precedence over `OR`, so the appended conjunct binds only to the
reversed-orientation disjunct — rows in the queried orientation are *not*
date-filtered. -/
def h2hPool (ms : List MatchRow) (h a : Nat) (cutoff : Option Int) :
    List MatchRow :=
  ms.filter (fun m =>
    (m.home == h && m.away == a)
      || ((m.home == a && m.away == h) && beforeCutoff cutoff m))

/-- `H2H_Draws_Last_5`: `COUNT(*) ... WHERE rn <= 5 AND result = 0`. -/
def h2hDrawsLast5 (ms : List MatchRow) (h a : Nat) (cutoff : Option Int) :
    Nat :=
  ((lastFive (h2hPool ms h a cutoff)).filter (fun m => m.result == 0)).length

/-- Pool of a team's matches in the home role. -/
def homePool (ms : List MatchRow) (h : Nat) (cutoff : Option Int) :
    List MatchRow :=
  ms.filter (fun m => m.home == h && beforeCutoff cutoff m)

/-- Pool of a team's matches in the away role. -/
def awayPool (ms : List MatchRow) (a : Nat) (cutoff : Option Int) :
    List MatchRow :=
  ms.filter (fun m => m.away == a && beforeCutoff cutoff m)

/-- `AVG(CAST(goal_diff AS FLOAT))` with the caller's `or 0` collapsing the
empty-pool `NULL` to 0. -/
def avgOrZero (l : List Int) : ℚ :=
  if l.length = 0 then 0 else (l.sum : ℚ) / (l.length : ℚ)

/-- `Avg_Home_GD_Last_5`: mean of `home_goals - away_goals` over the last five
home matches. -/
def avgHomeGDLast5 (ms : List MatchRow) (h : Nat) (cutoff : Option Int) : ℚ :=
  avgOrZero ((lastFive (homePool ms h cutoff)).map (fun m => m.homeGoals - m.awayGoals))

/-- `Avg_Away_GD_Last_5`: mean of `away_goals - home_goals` over the last five
away matches. -/
def avgAwayGDLast5 (ms : List MatchRow) (a : Nat) (cutoff : Option Int) : ℚ :=
  avgOrZero ((lastFive (awayPool ms a cutoff)).map (fun m => m.awayGoals - m.homeGoals))

/-- `SUM(CASE WHEN result = 0 THEN 1 ELSE 0 END) / NULLIF(COUNT(*), 0)` with
the caller's `or 0` collapsing the empty-pool `NULL` to 0. -/
def drawFraction (l : List MatchRow) : ℚ :=
  if l.length = 0 then 0
  else ((l.filter (fun m => m.result == 0)).length : ℚ) / (l.length : ℚ)

/-- `Draw_Tendency_Home` over the last five home-role matches. -/
def drawTendencyHome (ms : List MatchRow) (h : Nat) (cutoff : Option Int) : ℚ :=
  drawFraction (lastFive (homePool ms h cutoff))

/-- `Draw_Tendency_Away` over the last five away-role matches. -/
def drawTendencyAway (ms : List MatchRow) (a : Nat) (cutoff : Option Int) : ℚ :=
  drawFraction (lastFive (awayPool ms a cutoff))

/-- The 8-field feature dict, in the source's required order. -/
structure FeatureVec where
  awayElo : ℚ
  homeElo : ℚ
  h2hDraws : Nat
  dtHome : ℚ
  dtAway : ℚ
  gdHome : ℚ
  gdAway : ℚ
  eloDiff : ℚ
deriving DecidableEq

/-- The rows returned by the Elo query of `get_match_features2`:
`SELECT current_elo_rating FROM teams WHERE team_id = ?` plus, when
`match_date` is given, `AND updated_at < ?`. -/
def eloRows (ts : List (Team ℚ)) (tid : Nat) (cutoff : Option Int) : List ℚ :=
  (ts.filter (fun t =>
    t.tid == tid &&
      (match cutoff with
       | none => true
       | some d => decide (t.updatedAt < d)))).map (fun t => t.rating)

/-- `get_match_features2` reads each Elo with
`cursor.fetchone()[0] if cursor.fetchone() else 1500.0`: the conditional
evaluates one `fetchone()` (consuming the first row), and when that row
exists the then-branch calls `fetchone()` *again*, getting the next row —
`None` for a single-row result, so `None[0]` raises `TypeError`. -/
def fetchEloTwice (rows : List ℚ) : Except String ℚ :=
  match rows.head? with
  | some _ =>
    match (rows.drop 1).head? with
    | some x => .ok x
    | none => .error "TypeError: NoneType is not subscriptable"
  | none => .ok 1500

/-- `Database.get_match_features2(home_api, away_api, match_date)`:
`.ok none` models the `return None` on an unresolved competitor (NotFound);
`.error` models an uncaught exception escaping the call. -/
def getMatchFeatures2 (db : DB ℚ) (homeApi awayApi : Nat)
    (cutoff : Option Int) : Except String (Option FeatureVec) :=
  match findTeamByApi db.teams homeApi with
  | none => .ok none
  | some th =>
    match findTeamByApi db.teams awayApi with
    | none => .ok none
    | some ta =>
      match fetchEloTwice (eloRows db.teams th.tid cutoff) with
      | .error e => .error e
      | .ok homeElo =>
        match fetchEloTwice (eloRows db.teams ta.tid cutoff) with
        | .error e => .error e
        | .ok awayElo =>
          .ok (some
            { awayElo := awayElo
              homeElo := homeElo
              h2hDraws := h2hDrawsLast5 db.matchesTable th.tid ta.tid cutoff
              dtHome := drawTendencyHome db.matchesTable th.tid cutoff
              dtAway := drawTendencyAway db.matchesTable ta.tid cutoff
              gdHome := avgHomeGDLast5 db.matchesTable th.tid cutoff
              gdAway := avgAwayGDLast5 db.matchesTable ta.tid cutoff
              eloDiff := homeElo - awayElo })

/-- `Database.get_match_features(home_api, away_api)` (the cutoff-less code
path, which fetches each Elo exactly once): `none` models the `return None`
on an unresolved competitor. -/
def getMatchFeatures (db : DB ℚ) (homeApi awayApi : Nat) :
    Option FeatureVec :=
  match findTeamByApi db.teams homeApi with
  | none => none
  | some th =>
    match findTeamByApi db.teams awayApi with
    | none => none
    | some ta =>
      let homeElo := ((findTeamByTid db.teams th.tid).map Team.rating).getD 0
      let awayElo := ((findTeamByTid db.teams ta.tid).map Team.rating).getD 0
      some
        { awayElo := awayElo
          homeElo := homeElo
          h2hDraws := h2hDrawsLast5 db.matchesTable th.tid ta.tid none
          dtHome := drawTendencyHome db.matchesTable th.tid none
          dtAway := drawTendencyAway db.matchesTable ta.tid none
          gdHome := avgHomeGDLast5 db.matchesTable th.tid none
          gdAway := avgAwayGDLast5 db.matchesTable ta.tid none
          eloDiff := homeElo - awayElo }

/-! ### Upstream request retry (`services/football_api.py`,
`FootballAPIService._make_request`, lines 35-94) -/

/-- What one attempt of the request loop observes.  `rateLimited s` is a 429
response; `s` is the result of parsing the server-suggested wait out of the
error message (`float(message.split('Wait ')[1].split(' seconds')[0])`),
`none` when that parse raises. -/
inductive ApiResponse where
  | ok
  | rateLimited (suggested : Option ℚ)
  | otherStatus (code : Nat)
  | netError
deriving DecidableEq

def MAX_RETRIES : Nat := 3

def INITIAL_RETRY_DELAY : ℚ := 5

/-- The 429 wait: the parsed server suggestion when present, otherwise
`initial_retry_delay * (2 ** attempt)`; in both cases `min(wait, 60)`. -/
def backoffWait (suggested : Option ℚ) (attempt : Nat) : ℚ :=
  min (suggested.getD (INITIAL_RETRY_DELAY * 2 ^ attempt)) 60

/-- The value `_make_request` resolves to: a parsed payload, or the
`{"error": ...}` dict (an ordinary return value, not an exception). -/
inductive ReqResult where
  | success
  | errorValue (msg : String)
deriving DecidableEq

/-- `for attempt in range(self.max_retries + 1)`, with the post-loop
`return {"error": f"Failed to complete request after 4 attempts"}`.  Besides
the result, the list of sleeps performed is returned. -/
def requestLoop (resp : Nat → ApiResponse) :
    Nat → Nat → List ℚ → ReqResult × List ℚ
  | 0, _, waits => (.errorValue "Failed to complete request after 4 attempts", waits)
  | fuel + 1, attempt, waits =>
    match resp attempt with
    | .ok => (.success, waits)
    | .rateLimited s =>
      requestLoop resp fuel (attempt + 1) (waits ++ [backoffWait s attempt])
    | .otherStatus c =>
      (.errorValue ("API request failed with status " ++ toString c), waits)
    | .netError =>
      if attempt < MAX_RETRIES then
        requestLoop resp fuel (attempt + 1)
          (waits ++ [INITIAL_RETRY_DELAY * 2 ^ attempt])
      else (.errorValue "Request error after 4 attempts", waits)

/-- `FootballAPIService._make_request` given the per-attempt responses. -/
def makeRequest (resp : Nat → ApiResponse) : ReqResult × List ℚ :=
  requestLoop resp (MAX_RETRIES + 1) 0 []


/-! ### Concrete states for evaluation -/

/-- A store with one head-to-head draw (home 10, away 20) dated before a
cutoff at day 7. -/
def leakS1 : List MatchRow := [⟨1, none, 10, 20, 5, 1, 1, 0⟩]

/-- The same store plus a second draw in the same orientation dated 9, at or
after the cutoff 7: the two stores agree on every event dated before 7. -/
def leakS2 : List MatchRow :=
  [⟨1, none, 10, 20, 5, 1, 1, 0⟩, ⟨2, none, 10, 20, 9, 2, 2, 0⟩]

/-- A state where both competitors resolve from their API ids. -/
def fdbC : DB ℚ :=
  { teams := [⟨1, some 1, "Arsenal", 1500, 100⟩, ⟨2, some 2, "Chelsea", 1450, 100⟩]
    matchesTable := [⟨1, some 11, 1, 2, 10, 2, 0, -1⟩]
    nextTeamId := 3
    nextMatchId := 2
    watermark := none }

/-- A trivial stand-in engine for concrete evaluations whose conclusions are
independent of the rating arithmetic (event counts, skip/no-skip outcomes). -/
def qIdEngine : ℚ → ℚ → Int → ℚ × ℚ := fun rh ra _ => (rh, ra)

/-- A reachable pre-state for the duplicate-ingestion counterexample: team 1
known under API id 1 with name "Y", team 2 from a historical import with no
API id and name "HN". -/
def dbX : DB ℚ :=
  { teams := [⟨1, some 1, "Y", 1500, 0⟩, ⟨2, none, "HN", 1500, 0⟩]
    matchesTable := []
    nextTeamId := 3
    nextMatchId := 1
    watermark := none }

/-- A raw event without an external event id whose home side carries API id 1
but name "HN", and whose away side carries API id 2 but name "Y" (crossed
name/id data relative to `dbX`). -/
def recX : RawRecord :=
  { apiMid := none, homeApi := 1, awayApi := 2, homeName := "HN"
    awayName := "Y", date := 10, homeGoals := 2, awayGoals := 0, result := -1 }

/-- A fresh raw event carrying an external event id. -/
def recW : RawRecord :=
  { apiMid := some 7, homeApi := 1, awayApi := 2, homeName := "A"
    awayName := "B", date := 3, homeGoals := 2, awayGoals := 0, result := -1 }


/-- Every stored row references existing teams (true of every state reachable
by ingestion alone: rows are only inserted after both sides resolve). -/
def GoodRefs (db : DB ρ) : Prop :=
  ∀ m ∈ db.matchesTable,
    teamExists db.teams m.home = true ∧ teamExists db.teams m.away = true

/-- At most one stored row per `(date, home_team_id, away_team_id)` triple. -/
def DistinctTriples (l : List MatchRow) : Prop :=
  l.Pairwise (fun m1 m2 =>
    ¬(m1.date = m2.date ∧ m1.home = m2.home ∧ m1.away = m2.away))

/-! ## Lemmas and claim theorems -/

/-! #### Numeric facts about the expectation at the default ratings -/

lemma rpow_seven_fortieths_pow_forty :
    ((10 : ℝ) ^ ((7 : ℝ) / 40)) ^ (40 : ℕ) = (10 : ℝ) ^ (7 : ℕ) := by
  rw [← Real.rpow_natCast ((10 : ℝ) ^ ((7 : ℝ) / 40)) 40,
    ← Real.rpow_mul (by norm_num : (0 : ℝ) ≤ 10),
    show (7 : ℝ) / 40 * ((40 : ℕ) : ℝ) = ((7 : ℕ) : ℝ) by push_cast; ring,
    Real.rpow_natCast]

lemma rpow_seven_fortieths_lb : (1.496 : ℝ) < (10 : ℝ) ^ ((7 : ℝ) / 40) := by
  have h0 : (0 : ℝ) ≤ (10 : ℝ) ^ ((7 : ℝ) / 40) :=
    Real.rpow_nonneg (by norm_num) _
  refine lt_of_pow_lt_pow_left₀ 40 h0 ?_
  rw [rpow_seven_fortieths_pow_forty]
  norm_num

lemma rpow_seven_fortieths_ub : (10 : ℝ) ^ ((7 : ℝ) / 40) < 1.4965 := by
  refine lt_of_pow_lt_pow_left₀ 40 (by norm_num) ?_
  rw [rpow_seven_fortieths_pow_forty]
  norm_num

lemma homeExpected_default_eq :
    homeExpected 1500 1500 = 1 / (1 + ((10 : ℝ) ^ ((7 : ℝ) / 40))⁻¹) := by
  unfold homeExpected HOME_ADVANTAGE
  rw [show ((1500 : ℝ) - (1500 + 70)) / 400 = -((7 : ℝ) / 40) by norm_num,
    Real.rpow_neg (by norm_num : (0 : ℝ) ≤ 10)]

lemma homeExpected_default_bounds :
    0.59935 < homeExpected 1500 1500 ∧ homeExpected 1500 1500 < 0.59944 := by
  have ht1 := rpow_seven_fortieths_lb
  have ht2 := rpow_seven_fortieths_ub
  have htpos : (0 : ℝ) < (10 : ℝ) ^ ((7 : ℝ) / 40) := by
    calc (0 : ℝ) < 1.496 := by norm_num
    _ < _ := ht1
  rw [homeExpected_default_eq]
  set t := (10 : ℝ) ^ ((7 : ℝ) / 40) with hT
  have hkey : 1 / (1 + t⁻¹) = t / (t + 1) := by
    field_simp
  have htp1 : (0 : ℝ) < t + 1 := by linarith
  rw [hkey]
  constructor
  · rw [lt_div_iff₀ htp1]
    linarith
  · rw [div_lt_iff₀ htp1]
    linarith


/-- C9: rating updates are zero-sum — for every match and every outcome value,
the two actual scores sum to 1, the two expected scores sum to 1, the home
delta is the exact negation of the away delta, and the sum of the two ratings
is unchanged by the update. -/
theorem elo_updates_zero_sum (h a : ℝ) (result : Int) :
    homeActual result + awayActual result = 1 ∧
    homeExpected h a + awayExpected h a = 1 ∧
    newHomeElo h a result + newAwayElo h a result = h + a ∧
    newHomeElo h a result - h = -(newAwayElo h a result - a) := by
  have hact : homeActual result + awayActual result = 1 := by
    unfold homeActual awayActual
    split_ifs <;> norm_num
  refine ⟨hact, ?_, ?_, ?_⟩
  · unfold awayExpected; ring
  · unfold newHomeElo newAwayElo awayExpected K_FACTOR
    linear_combination (30 : ℝ) * hact
  · unfold newHomeElo newAwayElo awayExpected K_FACTOR
    linear_combination (30 : ℝ) * hact

/-- C3: the rating update computes
`expectedHome = 1/(1 + 10^((rA − (rH + 70))/400))`, `expectedAway =
1 − expectedHome`, actual scores 1 / 0.5 / 0 per outcome, and
`newRating = rating + 30·(actual − expected)`; at the defaults (both 1500,
home win) the expectation is ≈ 0.599 and the new home rating ≈ 1512.0. -/
theorem elo_formula_and_default_scenario :
    (∀ h a : ℝ, homeExpected h a =
      1 / (1 + (10 : ℝ) ^ ((a - (h + 70)) / 400))) ∧
    (∀ h a : ℝ, awayExpected h a = 1 - homeExpected h a) ∧
    (homeActual (-1) = 1 ∧ awayActual (-1) = 0) ∧
    (homeActual 0 = 1 / 2 ∧ awayActual 0 = 1 / 2) ∧
    (homeActual 1 = 0 ∧ awayActual 1 = 1) ∧
    (∀ (h a : ℝ) (r : Int),
      newHomeElo h a r = h + 30 * (homeActual r - homeExpected h a)) ∧
    (∀ (h a : ℝ) (r : Int),
      newAwayElo h a r = a + 30 * (awayActual r - awayExpected h a)) ∧
    |homeExpected 1500 1500 - 0.599| < 1 / 1000 ∧
    |newHomeElo 1500 1500 (-1) - 1512| < 1 / 50 := by
  obtain ⟨hlb, hub⟩ := homeExpected_default_bounds
  refine ⟨?_, ?_, ?_, ?_, ?_, ?_, ?_, ?_, ?_⟩
  · intro h a; simp [homeExpected, HOME_ADVANTAGE]
  · intro h a; simp [awayExpected]
  · constructor <;> norm_num [homeActual, awayActual]
  · constructor <;> norm_num [homeActual, awayActual]
  · constructor <;> norm_num [homeActual, awayActual]
  · intro h a r; simp [newHomeElo, K_FACTOR]
  · intro h a r; simp [newAwayElo, K_FACTOR]
  · rw [abs_lt]; constructor <;> linarith
  · have hval : newHomeElo 1500 1500 (-1) =
        1500 + 30 * (1 - homeExpected 1500 1500) := by
      norm_num [newHomeElo, K_FACTOR, homeActual]
    rw [hval, abs_lt]; constructor <;> linarith

/-- C8: on a 429 the wait before retrying is the parsed server suggestion when
present and the exponential `5·2^attempt` otherwise, capped at 60 seconds in
both cases; at most 4 attempts are spent, after which the request resolves to
an error value rather than raising. -/
theorem rate_limit_retry_wait_and_budget :
    (∀ f : Nat → Option ℚ,
      makeRequest (fun n => .rateLimited (f n)) =
        (.errorValue "Failed to complete request after 4 attempts",
         [min ((f 0).getD 5) 60, min ((f 1).getD 10) 60,
          min ((f 2).getD 20) 60, min ((f 3).getD 40) 60])) ∧
    (∀ s : Option ℚ,
      makeRequest (fun n => if n = 0 then .rateLimited s else .ok) =
        (.success, [min (s.getD 5) 60])) ∧
    backoffWait (some 3) 0 = 3 ∧
    backoffWait none 0 = 5 ∧
    (∀ (s : Option ℚ) (k : Nat), backoffWait s k ≤ 60) := by
  refine ⟨?_, ?_, ?_, ?_, ?_⟩
  · intro f
    norm_num [makeRequest, requestLoop, backoffWait, INITIAL_RETRY_DELAY,
      MAX_RETRIES]
  · intro s
    norm_num [makeRequest, requestLoop, backoffWait, INITIAL_RETRY_DELAY,
      MAX_RETRIES]
  · norm_num [backoffWait]
  · norm_num [backoffWait, INITIAL_RETRY_DELAY]
  · intro s k; exact min_le_right _ _


lemma processOneMatch_skips (dflt : ρ) (eng : ρ → ρ → Int → ρ × ρ)
    (db : DB ρ) (m : ApiMatch) : processOneMatch dflt eng db m = (db, false) := by
  unfold processOneMatch getMatchFeaturesWithDateKw
  split_ifs <;> rfl

lemma processNewMatches_noop (dflt : ρ)
    (eng : ρ → ρ → Int → ρ × ρ) (db : DB ρ) (ms : List ApiMatch) :
    processNewMatches dflt eng db ms = (db, 0) := by
  have key : ∀ (l : List ApiMatch) (p : DB ρ × Nat),
      l.foldl
        (fun p m =>
          let q := processOneMatch dflt eng p.1 m
          (q.1, p.2 + if q.2 then 1 else 0)) p = p := by
    intro l
    induction l with
    | nil => intro p; rfl
    | cons m rest ih =>
      intro p
      rw [List.foldl_cons]
      have hstep : (let q := processOneMatch dflt eng p.1 m
          (q.1, p.2 + if q.2 then 1 else 0)) = p := by
        simp [processOneMatch_skips]
      rw [hstep]
      exact ih p
  exact key ms (db, 0)

/-- C2 (code-bug evaluation): `process_new_matches` never ingests anything.
For every batch, every record — including fresh, well-formed, `FINISHED`
ones — is dropped, the state is unchanged and `added_count` is 0: the feature
call at `scheduler.py` line 97 passes the unsupported keyword `match_date` to
`Database.get_match_features`, the resulting `TypeError` is caught by the
per-record handler, and the `add_new_match` / `update_elo_ratings` branch is
never reached. -/
theorem process_new_matches_never_adds (dflt : ρ)
    (eng : ρ → ρ → Int → ρ × ρ) (db : DB ρ) (ms : List ApiMatch) :
    processNewMatches dflt eng db ms = (db, 0) :=
  processNewMatches_noop dflt eng db ms

lemma runFetchWindow_state (dflt : ρ) (eng : ρ → ρ → Int → ρ × ρ)
    (db : DB ρ) (env : SyncEnv) (f t : Int) :
    (runFetchWindow dflt eng db env f t).1 =
      { db with watermark := some env.now } := by
  unfold runFetchWindow
  simp only [processNewMatches_noop]

/-- C7: every synchronization pass ends with the watermark set to the current
date; an empty or inverted window is a no-op that still advances the watermark
and creates no Event rows; and the list of sub-windows attempted does not
depend on the fetch outcomes, so failed sub-windows never block the remaining
ones (nor the watermark advance). -/
theorem sync_pass_always_advances_watermark (dflt : ρ)
    (eng : ρ → ρ → Int → ρ × ρ) (db : DB ρ) (env : SyncEnv)
    (g : Nat → Except String (List ApiMatch)) :
    (updateMatches dflt eng db env).1.watermark = some env.now ∧
    (updateMatches dflt eng db env).1.matchesTable = db.matchesTable ∧
    (updateMatches dflt eng db env).2 =
      (updateMatches dflt eng db { env with fetches := g }).2 := by
  refine ⟨?_, ?_, ?_⟩
  all_goals unfold updateMatches
  all_goals cases lastMatchDate db
  all_goals dsimp only
  all_goals split_ifs
  all_goals simp [runFetchWindow_state, runFetchWindow, processNewMatches_noop]


lemma chronoPass_eq_foldl (eng : ρ → ρ → Int → ρ × ρ) :
    ∀ (l : List MatchRow) (seen : List Nat) (db : DB ρ),
      chronoPass eng l seen db =
        (keepFirstByMid l seen).foldl (fun d m => updateEloDb eng d m.mid) db := by
  intro l
  induction l with
  | nil => intro seen db; rfl
  | cons m rest ih =>
    intro seen db
    unfold chronoPass keepFirstByMid
    by_cases h : m.mid ∈ seen
    · simp only [if_pos h]
      exact ih seen db
    · simp only [if_neg h, List.foldl_cons]
      exact ih (m.mid :: seen) (updateEloDb eng db m.mid)

lemma keepFirstByMid_sublist :
    ∀ (l : List MatchRow) (seen : List Nat),
      List.Sublist (keepFirstByMid l seen) l := by
  intro l
  induction l with
  | nil => intro seen; simp [keepFirstByMid]
  | cons m rest ih =>
    intro seen
    unfold keepFirstByMid
    by_cases h : m.mid ∈ seen
    · simp only [if_pos h]
      exact (ih seen).cons m
    · simp only [if_neg h]
      exact (ih (m.mid :: seen)).cons₂ m

lemma keepFirstByMid_mids_fresh :
    ∀ (l : List MatchRow) (seen : List Nat),
      (((keepFirstByMid l seen).map MatchRow.mid).Nodup) ∧
        ∀ x ∈ (keepFirstByMid l seen).map MatchRow.mid, x ∉ seen := by
  intro l
  induction l with
  | nil => intro seen; simp [keepFirstByMid]
  | cons m rest ih =>
    intro seen
    unfold keepFirstByMid
    by_cases h : m.mid ∈ seen
    · simpa only [if_pos h] using ih seen
    · simp only [if_neg h, List.map_cons, List.nodup_cons, List.mem_cons]
      obtain ⟨ihn, ihf⟩ := ih (m.mid :: seen)
      refine ⟨⟨fun hmem => ?_, ihn⟩, ?_⟩
      · exact (ihf _ hmem) (List.mem_cons_self _ _)
      · rintro x (rfl | hx)
        · exact h
        · intro hxs
          exact (ihf x hx) (List.mem_cons_of_mem _ hxs)

lemma keepFirstByMid_mids_complete :
    ∀ (l : List MatchRow) (seen : List Nat) (x : Nat),
      x ∈ l.map MatchRow.mid → x ∉ seen →
        x ∈ (keepFirstByMid l seen).map MatchRow.mid := by
  intro l
  induction l with
  | nil => intro seen x hx; simp at hx
  | cons m rest ih =>
    intro seen x hx hxs
    unfold keepFirstByMid
    rcases List.mem_cons.mp hx with heq | hmem
    · by_cases h : m.mid ∈ seen
      · exact absurd (heq ▸ h) hxs
      · simp only [if_neg h, List.map_cons, List.mem_cons]
        exact Or.inl heq
    · by_cases h : m.mid ∈ seen
      · simp only [if_pos h]
        exact ih seen x hmem hxs
      · simp only [if_neg h, List.map_cons, List.mem_cons]
        by_cases hxm : x = m.mid
        · exact Or.inl hxm
        · refine Or.inr (ih (m.mid :: seen) x hmem ?_)
          simp [hxm, hxs]

/-- C5: the full rebuild (`EloFixer.fix_elo_ratings`) first resets every
competitor's rating to the default, then folds the stored events through the
rating update in ascending-timestamp order; the processed sequence covers
every stored event, repeats no event id within the pass, and is
nondecreasing in date; and when an unexpected error escapes the rebuild, the
state is restored exactly to its pre-rebuild snapshot and the error is
re-raised. -/
theorem rebuild_resets_folds_sorted_and_restores (dflt : ρ)
    (eng : ρ → ρ → Int → ρ × ρ) (db : DB ρ) (fp : FailPoint) :
    fixEloRatings dflt eng db none =
      ((procSeq db).foldl (fun d m => updateEloDb eng d m.mid)
        (resetRatings dflt db), false) ∧
    (resetRatings dflt db).teams.map Team.rating =
      List.replicate db.teams.length dflt ∧
    List.Pairwise dateLe (procSeq db) ∧
    ((procSeq db).map MatchRow.mid).Nodup ∧
    db.matchesTable.map MatchRow.mid ⊆ (procSeq db).map MatchRow.mid ∧
    fixEloRatings dflt eng db (some fp) = (db, true) := by
  have hmt : (resetRatings dflt db).matchesTable = db.matchesTable := rfl
  have h1 : processChrono eng (resetRatings dflt db) =
      (procSeq db).foldl (fun d m => updateEloDb eng d m.mid)
        (resetRatings dflt db) := by
    unfold processChrono procSeq
    rw [hmt, chronoPass_eq_foldl]
  refine ⟨?_, ?_, ?_, ?_, ?_, ?_⟩
  · show (processChrono eng (resetRatings dflt db), false) = _
    rw [h1]
  · refine List.eq_replicate_iff.mpr ⟨by simp [resetRatings], ?_⟩
    intro x hx
    simp only [resetRatings, List.map_map] at hx
    obtain ⟨t, -, rfl⟩ := List.mem_map.mp hx
    rfl
  · show List.Pairwise dateLe (keepFirstByMid (sortByDateAsc db.matchesTable) [])
    exact (List.sorted_insertionSort dateLe db.matchesTable).sublist
      (keepFirstByMid_sublist _ _)
  · exact (keepFirstByMid_mids_fresh _ _).1
  · intro x hx
    have hmem : x ∈ (sortByDateAsc db.matchesTable).map MatchRow.mid := by
      have hp : List.Perm ((sortByDateAsc db.matchesTable).map MatchRow.mid)
          (db.matchesTable.map MatchRow.mid) :=
        (List.perm_insertionSort dateLe db.matchesTable).map MatchRow.mid
      exact hp.mem_iff.mpr hx
    show x ∈ (keepFirstByMid (sortByDateAsc db.matchesTable) []).map MatchRow.mid
    exact keepFirstByMid_mids_complete _ [] x hmem (by simp)
  · cases fp <;> rfl


/-- C4 (code-bug evaluation): the `H2H_Draws_Last_5` sub-query of
`get_match_features2` appends `' AND date < ?'` after an `OR`, and SQL `AND`
precedence attaches the cutoff only to the reversed-orientation disjunct, so
a head-to-head event in the queried orientation dated at or after the cutoff
enters the pool.  The two stores below agree on every event dated strictly
before the cutoff 7, yet the added future draw changes the head-to-head draw
count from 1 to 2 — `featuresFor(A, B, cutoff=T)` does include an event dated
≥ T in an aggregate, against the claim.  The other four aggregates append the
cutoff to an `OR`-free clause and are unchanged between the two stores. -/
theorem h2h_cutoff_leaks_future_draw :
    leakS1.filter (fun m => decide (m.date < 7)) =
      leakS2.filter (fun m => decide (m.date < 7)) ∧
    h2hDrawsLast5 leakS1 10 20 (some 7) = 1 ∧
    h2hDrawsLast5 leakS2 10 20 (some 7) = 2 ∧
    ¬(h2hDrawsLast5 leakS2 10 20 (some 7) =
        h2hDrawsLast5 leakS1 10 20 (some 7)) ∧
    drawTendencyHome leakS1 10 (some 7) = drawTendencyHome leakS2 10 (some 7) ∧
    drawTendencyAway leakS1 20 (some 7) = drawTendencyAway leakS2 20 (some 7) ∧
    avgHomeGDLast5 leakS1 10 (some 7) = avgHomeGDLast5 leakS2 10 (some 7) ∧
    avgAwayGDLast5 leakS1 20 (some 7) = avgAwayGDLast5 leakS2 20 (some 7) := by
  have hhp : homePool leakS1 10 (some 7) = homePool leakS2 10 (some 7) := by
    decide
  have hap : awayPool leakS1 20 (some 7) = awayPool leakS2 20 (some 7) := by
    decide
  refine ⟨by decide, by decide, by decide, by decide, ?_, ?_, ?_, ?_⟩
  · unfold drawTendencyHome; rw [hhp]
  · unfold drawTendencyAway; rw [hap]
  · unfold avgHomeGDLast5; rw [hhp]
  · unfold avgAwayGDLast5; rw [hap]

/-- C6 (code-bug evaluation): in `get_match_features2`, whenever the Elo query
returns a row — always, when no cutoff is given, and whenever the team's
`updated_at` precedes the cutoff otherwise — the double `fetchone()` in
`cursor.fetchone()[0] if cursor.fetchone() else 1500.0` exhausts the cursor
and the call raises `TypeError` instead of producing the 8-field vector, even
though both competitors resolve.  The NotFound half of the claim does hold
(either side unresolved gives `None` and no vector), and the cutoff-less
`get_match_features` (single fetch) does produce the vector. -/
theorem features2_typeerror_on_resolved_pair :
    getMatchFeatures2 fdbC 1 2 none =
      .error "TypeError: NoneType is not subscriptable" ∧
    getMatchFeatures2 fdbC 1 2 (some 200) =
      .error "TypeError: NoneType is not subscriptable" ∧
    getMatchFeatures2 fdbC 1 99 none = .ok none ∧
    getMatchFeatures2 fdbC 99 2 none = .ok none ∧
    (getMatchFeatures fdbC 1 2).isSome = true ∧
    (getMatchFeatures fdbC 1 2).map FeatureVec.h2hDraws = some 0 := by
  exact ⟨rfl, rfl, rfl, rfl, rfl, rfl⟩


lemma teamExists_map (f : Team ρ → Team ρ) (hf : ∀ t, (f t).tid = t.tid)
    (ts : List (Team ρ)) (x : Nat) :
    teamExists (ts.map f) x = teamExists ts x := by
  unfold teamExists
  rw [List.any_map]
  congr 1
  funext t
  simp [Function.comp, hf t]

lemma setApiId_tid (tid api : Nat) (t : Team ρ) :
    ((fun u => if u.tid == tid then { u with apiId := some api } else u) t).tid
      = t.tid := by
  by_cases h : t.tid == tid <;> simp [h]

lemma setRating_tid (tid : Nat) (x : ρ) (t : Team ρ) :
    ((fun u => if u.tid == tid then { u with rating := x } else u) t).tid
      = t.tid := by
  by_cases h : t.tid == tid <;> simp [h]

lemma teamExists_setApiId (ts : List (Team ρ)) (tid api x : Nat) :
    teamExists (setApiId ts tid api) x = teamExists ts x :=
  teamExists_map _ (setApiId_tid tid api) ts x

lemma teamExists_setRating (ts : List (Team ρ)) (tid : Nat) (v : ρ) (x : Nat) :
    teamExists (setRating ts tid v) x = teamExists ts x :=
  teamExists_map _ (setRating_tid tid v) ts x

lemma resolveTeam_matchesTable (dflt : ρ) (db : DB ρ) (api : Nat) (nm : String) :
    (resolveTeam dflt db api nm).1.matchesTable = db.matchesTable := by
  unfold resolveTeam
  cases findTeamByApi db.teams api with
  | some t => rfl
  | none =>
    cases findTeamByName db.teams nm with
    | some t => rfl
    | none => rfl

lemma resolveTeam_teamExists (dflt : ρ) (db : DB ρ) (api : Nat) (nm : String)
    (x : Nat) (hx : teamExists db.teams x = true) :
    teamExists (resolveTeam dflt db api nm).1.teams x = true := by
  unfold resolveTeam
  cases findTeamByApi db.teams api with
  | some t => exact hx
  | none =>
    cases findTeamByName db.teams nm with
    | some t =>
      show teamExists (setApiId db.teams t.tid api) x = true
      rw [teamExists_setApiId]
      exact hx
    | none =>
      show teamExists (db.teams ++ [_]) x = true
      unfold teamExists at hx ⊢
      rw [List.any_append, hx]
      rfl

lemma resolveTeam_self (dflt : ρ) (db : DB ρ) (api : Nat) (nm : String) :
    teamExists (resolveTeam dflt db api nm).1.teams
      (resolveTeam dflt db api nm).2 = true := by
  unfold resolveTeam
  cases hf : findTeamByApi db.teams api with
  | some t =>
    have hmem : t ∈ db.teams := List.mem_of_find?_eq_some hf
    unfold teamExists
    exact List.any_of_mem hmem (by simp)
  | none =>
    cases hn : findTeamByName db.teams nm with
    | some t =>
      show teamExists (setApiId db.teams t.tid api) t.tid = true
      rw [teamExists_setApiId]
      have hmem : t ∈ db.teams := List.mem_of_find?_eq_some hn
      unfold teamExists
      exact List.any_of_mem hmem (by simp)
    | none =>
      show teamExists (db.teams ++ [_]) db.nextTeamId = true
      unfold teamExists
      rw [List.any_append]
      simp

lemma updateEloDb_matchesTable (eng : ρ → ρ → Int → ρ × ρ) (db : DB ρ)
    (mid : Nat) : (updateEloDb eng db mid).matchesTable = db.matchesTable := by
  unfold updateEloDb
  split
  · rfl
  · split <;> rfl

lemma updateEloDb_teamExists (eng : ρ → ρ → Int → ρ × ρ) (db : DB ρ)
    (mid x : Nat) :
    teamExists (updateEloDb eng db mid).teams x = teamExists db.teams x := by
  unfold updateEloDb
  split
  · rfl
  · split
    · show teamExists (setRating (setRating db.teams _ _) _ _) x = _
      rw [teamExists_setRating, teamExists_setRating]
    · rfl


lemma goodRefs_resolve (dflt : ρ) (db : DB ρ) (api : Nat) (nm : String)
    (hg : GoodRefs db) : GoodRefs (resolveTeam dflt db api nm).1 := by
  intro m hm
  rw [resolveTeam_matchesTable] at hm
  obtain ⟨h1, h2⟩ := hg m hm
  exact ⟨resolveTeam_teamExists _ _ _ _ _ h1, resolveTeam_teamExists _ _ _ _ _ h2⟩

lemma addNewMatch_inv (dflt : ρ) (db : DB ρ) (r : RawRecord)
    (hg : GoodRefs db) (hd : DistinctTriples db.matchesTable) :
    GoodRefs (addNewMatch dflt db r).1 ∧
      DistinctTriples (addNewMatch dflt db r).1.matchesTable := by
  have hg1 : GoodRefs (resolveTeam dflt db r.homeApi r.homeName).1 :=
    goodRefs_resolve _ _ _ _ hg
  have hg2 : GoodRefs (resolveTeam dflt
      (resolveTeam dflt db r.homeApi r.homeName).1 r.awayApi r.awayName).1 :=
    goodRefs_resolve _ _ _ _ hg1
  have hmt2 : (resolveTeam dflt
      (resolveTeam dflt db r.homeApi r.homeName).1 r.awayApi
        r.awayName).1.matchesTable = db.matchesTable := by
    rw [resolveTeam_matchesTable, resolveTeam_matchesTable]
  have hh : teamExists (resolveTeam dflt
      (resolveTeam dflt db r.homeApi r.homeName).1 r.awayApi
        r.awayName).1.teams (resolveTeam dflt db r.homeApi r.homeName).2
      = true :=
    resolveTeam_teamExists _ _ _ _ _ (resolveTeam_self _ _ _ _)
  have ha : teamExists (resolveTeam dflt
      (resolveTeam dflt db r.homeApi r.homeName).1 r.awayApi
        r.awayName).1.teams (resolveTeam dflt
      (resolveTeam dflt db r.homeApi r.homeName).1 r.awayApi r.awayName).2
      = true :=
    resolveTeam_self _ _ _ _
  simp only [addNewMatch]
  set db1 := (resolveTeam dflt db r.homeApi r.homeName).1 with hdb1
  set h := (resolveTeam dflt db r.homeApi r.homeName).2 with hhid
  set db2 := (resolveTeam dflt db1 r.awayApi r.awayName).1 with hdb2
  set a := (resolveTeam dflt db1 r.awayApi r.awayName).2 with haid
  have hd2 : DistinctTriples db2.matchesTable := by
    rw [hmt2]; exact hd
  split_ifs with hdup hviol
  · exact ⟨hg2, hd2⟩
  · exact ⟨hg2, hd2⟩
  · constructor
    · intro m hm
      rcases List.mem_append.mp hm with hold | hnew
      · exact hg2 m hold
      · have hrow : m = ⟨db2.nextMatchId, r.apiMid, h, a, r.date,
            r.homeGoals, r.awayGoals, r.result⟩ := by
          simpa using hnew
        subst hrow
        exact ⟨hh, ha⟩
    · show DistinctTriples (db2.matchesTable ++ [_])
      unfold DistinctTriples
      rw [List.pairwise_append]
      refine ⟨hd2, by simp, ?_⟩
      intro m hm m2 hm2
      have hm2eq : m2 = ⟨db2.nextMatchId, r.apiMid, h, a, r.date,
          r.homeGoals, r.awayGoals, r.result⟩ := by
        simpa using hm2
      subst hm2eq
      rintro ⟨e1, e2, e3⟩
      have hjoin : joinedRow db2 m = true := by
        obtain ⟨j1, j2⟩ := hg2 m hm
        simp [joinedRow, j1, j2]
      have hdup2 : dupExists db2 r h a = true := by
        unfold dupExists
        cases r.apiMid with
        | none =>
          refine List.any_eq_true.mpr ⟨m, hm, ?_⟩
          simp only [Bool.and_eq_true, Bool.or_eq_true, beq_iff_eq]
          exact ⟨⟨⟨e1, e2⟩, e3⟩, hjoin⟩
        | some api =>
          refine List.any_eq_true.mpr ⟨m, hm, ?_⟩
          simp only [Bool.and_eq_true, Bool.or_eq_true, beq_iff_eq]
          exact ⟨Or.inr ⟨⟨e1, e2⟩, e3⟩, hjoin⟩
      exact hdup hdup2

lemma ingest_inv (dflt : ρ) (eng : ρ → ρ → Int → ρ × ρ) (db : DB ρ)
    (r : RawRecord) (hg : GoodRefs db) (hd : DistinctTriples db.matchesTable) :
    GoodRefs (ingest dflt eng db r).1 ∧
      DistinctTriples (ingest dflt eng db r).1.matchesTable := by
  obtain ⟨g1, g2⟩ := addNewMatch_inv dflt db r hg hd
  unfold ingest
  rcases hA : addNewMatch dflt db r with ⟨db1, res⟩
  rw [hA] at g1 g2
  cases res with
  | none => exact ⟨g1, g2⟩
  | some mid =>
    constructor
    · intro m hm
      rw [updateEloDb_matchesTable] at hm
      obtain ⟨j1, j2⟩ := g1 m hm
      rw [updateEloDb_teamExists, updateEloDb_teamExists]
      exact ⟨j1, j2⟩
    · show DistinctTriples (updateEloDb eng db1 mid).matchesTable
      rw [updateEloDb_matchesTable]
      exact g2

/-- C10: starting from an empty store, any sequence of add-match operations
(each a resolve + duplicate-check + insert + rating update) leaves at most one
stored row per `(date, home_team_id, away_team_id)` triple, regardless of the
records' external ids — the duplicate check matches the triple in both of its
branches, also for records that do carry an external id. -/
theorem at_most_one_event_per_date_pair (dflt : ρ)
    (eng : ρ → ρ → Int → ρ × ρ) (rs : List RawRecord) :
    DistinctTriples
      ((rs.foldl (fun d r => (ingest dflt eng d r).1) emptyDB).matchesTable) := by
  have key : ∀ (l : List RawRecord) (db : DB ρ),
      GoodRefs db → DistinctTriples db.matchesTable →
      GoodRefs (l.foldl (fun d r => (ingest dflt eng d r).1) db) ∧
        DistinctTriples
          ((l.foldl (fun d r => (ingest dflt eng d r).1) db).matchesTable) := by
    intro l
    induction l with
    | nil => intro db h1 h2; exact ⟨h1, h2⟩
    | cons r rest ih =>
      intro db h1 h2
      rw [List.foldl_cons]
      obtain ⟨j1, j2⟩ := ingest_inv dflt eng db r h1 h2
      exact ih _ j1 j2
  have base1 : GoodRefs (emptyDB : DB ρ) := by
    intro m hm
    simp [emptyDB] at hm
  have base2 : DistinctTriples (emptyDB : DB ρ).matchesTable :=
    List.Pairwise.nil
  exact (key rs emptyDB base1 base2).2


/-- C1 (counterexample): ingestion is not idempotent for records without an
external event id.  From the reachable state `dbX` (team 1 stored under API
id 1 with name "Y"; team 2 stored with no API id under name "HN"), ingesting
`recX` twice inserts two rows: the first call backfills API id 2 onto team 1
(name reconciliation on "Y"), so the second call resolves the home side to
team 2 instead of team 1, the `(date, home, away)` duplicate check misses the
stored row, and a second Event row is inserted (and the rating update runs
again). -/
theorem reingest_without_external_id_can_duplicate :
    ((ingest (1500 : ℚ) qIdEngine dbX recX).1).matchesTable.length = 1 ∧
    ((ingest (1500 : ℚ) qIdEngine
        (ingest (1500 : ℚ) qIdEngine dbX recX).1 recX).1).matchesTable.length
      = 2 ∧
    ¬(((ingest (1500 : ℚ) qIdEngine
          (ingest (1500 : ℚ) qIdEngine dbX recX).1 recX).1).matchesTable.length
        = ((ingest (1500 : ℚ) qIdEngine dbX recX).1).matchesTable.length) := by
  refine ⟨rfl, rfl, by decide⟩

lemma resolveTeam_teams_len (dflt : ρ) (db : DB ρ) (api : Nat) (nm : String) :
    db.teams.length ≤ (resolveTeam dflt db api nm).1.teams.length := by
  unfold resolveTeam
  cases findTeamByApi db.teams api with
  | some t => exact le_refl _
  | none =>
    cases findTeamByName db.teams nm with
    | some t =>
      show db.teams.length ≤ (setApiId db.teams t.tid api).length
      simp [setApiId]
    | none =>
      show db.teams.length ≤ (db.teams ++ [_]).length
      simp

lemma resolveTeam_teams_frame (dflt : ρ) (db : DB ρ) (api : Nat) (nm : String) :
    ((resolveTeam dflt db api nm).1.teams.take db.teams.length).map
        (fun t => (t.tid, t.rating)) =
      db.teams.map (fun t => (t.tid, t.rating)) := by
  unfold resolveTeam
  cases findTeamByApi db.teams api with
  | some t =>
    show (db.teams.take db.teams.length).map _ = _
    rw [List.take_length]
  | none =>
    cases findTeamByName db.teams nm with
    | some t =>
      show ((setApiId db.teams t.tid api).take db.teams.length).map _ = _
      have hlen : (setApiId db.teams t.tid api).length = db.teams.length := by
        simp [setApiId]
      rw [← hlen, List.take_length]
      unfold setApiId
      rw [List.map_map]
      apply List.map_congr_left
      intro u hu
      simp only [Function.comp_apply]
      split <;> rfl
    | none =>
      show ((db.teams ++ [_]).take db.teams.length).map _ = _
      rw [List.take_left]

lemma resolve2_teams_frame (dflt : ρ) (db : DB ρ) (api1 api2 : Nat)
    (nm1 nm2 : String) :
    (((resolveTeam dflt (resolveTeam dflt db api1 nm1).1 api2 nm2).1.teams.take
        db.teams.length).map (fun t => (t.tid, t.rating))) =
      db.teams.map (fun t => (t.tid, t.rating)) := by
  have f1 := resolveTeam_teams_frame dflt db api1 nm1
  have f2 := resolveTeam_teams_frame dflt (resolveTeam dflt db api1 nm1).1
    api2 nm2
  have hlen : db.teams.length ≤ (resolveTeam dflt db api1 nm1).1.teams.length :=
    resolveTeam_teams_len dflt db api1 nm1
  have htt : (resolveTeam dflt (resolveTeam dflt db api1 nm1).1 api2
        nm2).1.teams.take db.teams.length =
      ((resolveTeam dflt (resolveTeam dflt db api1 nm1).1 api2
        nm2).1.teams.take
          (resolveTeam dflt db api1 nm1).1.teams.length).take
        db.teams.length := by
    rw [List.take_take, min_eq_left hlen]
  rw [htt, List.map_take, f2, ← List.map_take, f1]

lemma addNewMatch_insert_spec (dflt : ρ) (db : DB ρ) (r : RawRecord)
    (mid : Nat) (hins : (addNewMatch dflt db r).2 = some mid) :
    ∃ row ∈ (addNewMatch dflt db r).1.matchesTable,
      row.apiMid = r.apiMid ∧
      teamExists (addNewMatch dflt db r).1.teams row.home = true ∧
      teamExists (addNewMatch dflt db r).1.teams row.away = true := by
  have hh : teamExists (resolveTeam dflt
      (resolveTeam dflt db r.homeApi r.homeName).1 r.awayApi
        r.awayName).1.teams (resolveTeam dflt db r.homeApi r.homeName).2
      = true :=
    resolveTeam_teamExists _ _ _ _ _ (resolveTeam_self _ _ _ _)
  have ha := resolveTeam_self dflt
    (resolveTeam dflt db r.homeApi r.homeName).1 r.awayApi r.awayName
  simp only [addNewMatch] at hins ⊢
  split_ifs at hins ⊢ with h1 h2
  refine ⟨⟨(resolveTeam dflt (resolveTeam dflt db r.homeApi r.homeName).1
      r.awayApi r.awayName).1.nextMatchId, r.apiMid,
      (resolveTeam dflt db r.homeApi r.homeName).2,
      (resolveTeam dflt (resolveTeam dflt db r.homeApi r.homeName).1
        r.awayApi r.awayName).2, r.date, r.homeGoals, r.awayGoals,
      r.result⟩, ?_, rfl, hh, ha⟩
  exact List.mem_append_right _ (List.mem_singleton_self _)

lemma addNewMatch_skips_of_apiDup (dflt : ρ) (db : DB ρ) (r : RawRecord)
    (api : Nat) (hapi : r.apiMid = some api) (row : MatchRow)
    (hrow : row ∈ db.matchesTable) (hrapi : row.apiMid = some api)
    (hh : teamExists db.teams row.home = true)
    (ha : teamExists db.teams row.away = true) :
    addNewMatch dflt db r =
      ((resolveTeam dflt (resolveTeam dflt db r.homeApi r.homeName).1
        r.awayApi r.awayName).1, none) := by
  have hrow2 : row ∈ (resolveTeam dflt
      (resolveTeam dflt db r.homeApi r.homeName).1 r.awayApi
        r.awayName).1.matchesTable := by
    rw [resolveTeam_matchesTable, resolveTeam_matchesTable]
    exact hrow
  have hjoin : joinedRow (resolveTeam dflt
      (resolveTeam dflt db r.homeApi r.homeName).1 r.awayApi r.awayName).1 row
      = true := by
    have j1 := resolveTeam_teamExists dflt
      (resolveTeam dflt db r.homeApi r.homeName).1 r.awayApi r.awayName _
      (resolveTeam_teamExists dflt db r.homeApi r.homeName _ hh)
    have j2 := resolveTeam_teamExists dflt
      (resolveTeam dflt db r.homeApi r.homeName).1 r.awayApi r.awayName _
      (resolveTeam_teamExists dflt db r.homeApi r.homeName _ ha)
    simp [joinedRow, j1, j2]
  have hdup : dupExists (resolveTeam dflt
      (resolveTeam dflt db r.homeApi r.homeName).1 r.awayApi r.awayName).1 r
      (resolveTeam dflt db r.homeApi r.homeName).2
      (resolveTeam dflt (resolveTeam dflt db r.homeApi r.homeName).1 r.awayApi
        r.awayName).2 = true := by
    unfold dupExists
    rw [hapi]
    refine List.any_eq_true.mpr ⟨row, hrow2, ?_⟩
    simp [hrapi, hjoin]
  simp only [addNewMatch]
  rw [if_pos hdup]

/-- C1 (amended): re-ingesting a raw event that carries an external event id,
after a first call that inserted it, is a no-op skip: the second call returns
no id (skip, not an error), the stored rows are unchanged, and every
previously stored team keeps its id and rating. -/
theorem reingest_with_external_id_is_noop (dflt : ρ)
    (eng : ρ → ρ → Int → ρ × ρ) (db : DB ρ) (r : RawRecord) (api mid : Nat)
    (hapi : r.apiMid = some api)
    (hins : (addNewMatch dflt db r).2 = some mid) :
    (ingest dflt eng (ingest dflt eng db r).1 r).2 = none ∧
    (ingest dflt eng (ingest dflt eng db r).1 r).1.matchesTable =
      (ingest dflt eng db r).1.matchesTable ∧
    ((ingest dflt eng (ingest dflt eng db r).1 r).1.teams.take
        (ingest dflt eng db r).1.teams.length).map (fun t => (t.tid, t.rating))
      = (ingest dflt eng db r).1.teams.map (fun t => (t.tid, t.rating)) := by
  obtain ⟨row, hrowmem, hrowapi, hrowh, hrowa⟩ :=
    addNewMatch_insert_spec dflt db r mid hins
  have hing1 : (ingest dflt eng db r).1 =
      updateEloDb eng (addNewMatch dflt db r).1 mid := by
    unfold ingest
    rcases hA : addNewMatch dflt db r with ⟨dbI, res⟩
    rw [hA] at hins
    dsimp at hins
    subst hins
    rfl
  have hmem1 : row ∈ (ingest dflt eng db r).1.matchesTable := by
    rw [hing1, updateEloDb_matchesTable]
    exact hrowmem
  have hte1h : teamExists (ingest dflt eng db r).1.teams row.home = true := by
    rw [hing1, updateEloDb_teamExists]
    exact hrowh
  have hte1a : teamExists (ingest dflt eng db r).1.teams row.away = true := by
    rw [hing1, updateEloDb_teamExists]
    exact hrowa
  set dbOne := (ingest dflt eng db r).1 with hdbOne
  have hskip := addNewMatch_skips_of_apiDup dflt dbOne r api
    hapi row hmem1 (hrowapi.trans hapi) hte1h hte1a
  have hing2 : ingest dflt eng dbOne r =
      ((resolveTeam dflt (resolveTeam dflt dbOne r.homeApi
        r.homeName).1 r.awayApi r.awayName).1, none) := by
    unfold ingest
    rw [hskip]
  refine ⟨by rw [hing2], ?_, ?_⟩
  · rw [hing2]
    show (resolveTeam dflt (resolveTeam dflt dbOne r.homeApi
        r.homeName).1 r.awayApi r.awayName).1.matchesTable = _
    rw [resolveTeam_matchesTable, resolveTeam_matchesTable]
  · rw [hing2]
    exact resolve2_teams_frame dflt dbOne r.homeApi
      r.awayApi r.homeName r.awayName

/-- Witness for the amended C1 at a concrete fresh event with external id 7
ingested into the empty store and then replayed. -/
theorem reingest_with_external_id_is_noop_witness :
    recW.apiMid = some 7 ∧
    (addNewMatch (1500 : ℚ) emptyDB recW).2 = some 1 ∧
    ((ingest (1500 : ℚ) qIdEngine
        (ingest (1500 : ℚ) qIdEngine emptyDB recW).1 recW).2 = none ∧
     (ingest (1500 : ℚ) qIdEngine
        (ingest (1500 : ℚ) qIdEngine emptyDB recW).1 recW).1.matchesTable =
       (ingest (1500 : ℚ) qIdEngine emptyDB recW).1.matchesTable ∧
     ((ingest (1500 : ℚ) qIdEngine
        (ingest (1500 : ℚ) qIdEngine emptyDB recW).1 recW).1.teams.take
          (ingest (1500 : ℚ) qIdEngine emptyDB recW).1.teams.length).map
        (fun t => (t.tid, t.rating)) =
       (ingest (1500 : ℚ) qIdEngine emptyDB recW).1.teams.map
        (fun t => (t.tid, t.rating))) :=
  ⟨rfl, rfl,
    reingest_with_external_id_is_noop (1500 : ℚ) qIdEngine emptyDB recW 7 1
      rfl rfl⟩

end MatchPredictor
